import Mathlib

/-!
Shallow embedding of `qngng/qngng.py` (Québécois name generator):
the data model (`Gender`, `Format`, `Category`, `JsonEntry`, `PartialName`,
`FullName`), the pool builder (`NameGenerator.__init__` helpers), the sampler
(`random_full_name`, `_random_std_full_name`), the formatter
(`_strip_diacritics`, `_normalize_name`, `format_name`) and the wheel
animator (`_spin_wheel`).

Python strings are modelled as Lean `String`; machine floats of the wheel
animator are modelled as exact rationals (the float error accumulated over
the 53 additions of 0.02 is ~1e-15, far below the 0.01 margin of every
comparison against 1.05, so comparison outcomes agree with the exact model).
Randomness (`random.sample`, `random.choice`) is modelled by passing the
random choices explicitly: `random.choice` receives one natural number,
`random.sample` a list of naturals, one per selection step, each reduced
modulo the number of remaining elements, which covers exactly the
without-replacement outcomes the Python primitives can produce.
Python exceptions are modelled with `Except PyError`.
-/

/-- `class Gender(enum.StrEnum)`. -/
inductive Gender where
  | male
  | female
deriving DecidableEq, Repr

/-- `class Format(enum.StrEnum)`. -/
inductive Format where
  | default
  | snake
  | kebab
  | camel
  | capCamel
deriving DecidableEq, Repr

/-- `class Category(enum.StrEnum)`. -/
inductive Category where
  | std
  | udaActors
  | udaHosts
  | udaSingers
  | uda
  | lbl
  | sn
  | icip
  | d31
  | dug
  | all
deriving DecidableEq, Repr

/-- The `str` value of a `Category` member, as used to build resource keys. -/
def Category.str : Category → String
  | .std => "std"
  | .udaActors => "uda-actors"
  | .udaHosts => "uda-hosts"
  | .udaSingers => "uda-singers"
  | .uda => "uda"
  | .lbl => "lbl"
  | .sn => "sn"
  | .icip => "icip"
  | .d31 => "d31"
  | .dug => "dug"
  | .all => "all"

/-- The kind of Python exception an operation raises. -/
inductive PyError where
  | valueError
  | indexError
deriving DecidableEq, Repr

/-- `class JsonEntry(msgspec.Struct)`: optional `name` and `surname` fields. -/
structure JsonEntry where
  name : Option String := none
  surname : Option String := none
deriving DecidableEq, Repr

/-- `class PartialName(pydantic.BaseModel)`. -/
structure PartialName where
  name : String
  gender : Option Gender := none
deriving DecidableEq, Repr

instance : Inhabited PartialName := ⟨⟨"", none⟩⟩

/-- `class FullName(pydantic.BaseModel)`. -/
structure FullName where
  name : String
  surname : String
  gender : Gender
  middle_name : Option String := none
deriving DecidableEq, Repr

/-- Python truthiness of an `Optional[str]`: `None` and `''` are falsy. -/
def optStrTruthy : Option String → Bool
  | none => false
  | some s => s ≠ ""

/-! ## Character-level helpers

`str.upper` / `str.lower` / `str.isalnum` restricted to the ASCII and
Latin-1 ranges, which are the only characters that can reach these calls:
`_normalize_name` applies them only after `_strip_diacritics` has reduced
the string to ASCII, and `middle_initial` uppercases the first character of
a stored name. (Python's `'ß'.upper()` returns the two-character `'SS'`;
`'ß'` never occurs at the start of a name, so the single-character model
keeps it fixed.) -/

/-- Python `str.upper` on one character (ASCII and Latin-1 letters). -/
def pyUpperChar (c : Char) : Char :=
  if 'a' ≤ c ∧ c ≤ 'z' then Char.ofNat (c.toNat - 32)
  else if 0xE0 ≤ c.toNat ∧ c.toNat ≤ 0xFE ∧ c.toNat ≠ 0xF7 then Char.ofNat (c.toNat - 32)
  else c

/-- Python `str.lower` on one character (ASCII and Latin-1 letters). -/
def pyLowerChar (c : Char) : Char :=
  if 'A' ≤ c ∧ c ≤ 'Z' then Char.ofNat (c.toNat + 32)
  else if 0xC0 ≤ c.toNat ∧ c.toNat ≤ 0xDE ∧ c.toNat ≠ 0xD7 then Char.ofNat (c.toNat + 32)
  else c

/-- Python `str.isalnum` on one character (ASCII and Latin-1). -/
def pyIsAlnum (c : Char) : Bool :=
  ('a' ≤ c ∧ c ≤ 'z') ∨ ('A' ≤ c ∧ c ≤ 'Z') ∨ ('0' ≤ c ∧ c ≤ '9') ∨
    (c.toNat = 0xAA ∨ c.toNat = 0xB5 ∨ c.toNat = 0xBA) ∨
    (0xC0 ≤ c.toNat ∧ c.toNat ≤ 0xFF ∧ c.toNat ≠ 0xD7 ∧ c.toNat ≠ 0xF7)

/-! ## `_strip_diacritics`

`unicodedata.normalize('NFKD', s).encode('ascii', 'ignore').decode('utf-8')`.
The NFKD decomposition table is restricted to the Latin-1 letters (plus one
compatibility ligature), which covers the character set of the packaged
name data; every character without a listed decomposition maps to itself,
exactly as NFKD leaves undecomposable characters (`'ø'`, `'æ'`, `'ß'`, …)
in place. -/

/-- NFKD decompositions of the Latin-1 letters (combining marks:
U+0300 grave, U+0301 acute, U+0302 circumflex, U+0303 tilde,
U+0308 diaeresis, U+030A ring, U+0327 cedilla). -/
def nfkdTable : List (Char × List Char) :=
  [('À', ['A', '̀']), ('Á', ['A', '́']), ('Â', ['A', '̂']),
   ('Ã', ['A', '̃']), ('Ä', ['A', '̈']), ('Å', ['A', '̊']),
   ('Ç', ['C', '̧']),
   ('È', ['E', '̀']), ('É', ['E', '́']), ('Ê', ['E', '̂']),
   ('Ë', ['E', '̈']),
   ('Ì', ['I', '̀']), ('Í', ['I', '́']), ('Î', ['I', '̂']),
   ('Ï', ['I', '̈']),
   ('Ñ', ['N', '̃']),
   ('Ò', ['O', '̀']), ('Ó', ['O', '́']), ('Ô', ['O', '̂']),
   ('Õ', ['O', '̃']), ('Ö', ['O', '̈']),
   ('Ù', ['U', '̀']), ('Ú', ['U', '́']), ('Û', ['U', '̂']),
   ('Ü', ['U', '̈']),
   ('Ý', ['Y', '́']),
   ('à', ['a', '̀']), ('á', ['a', '́']), ('â', ['a', '̂']),
   ('ã', ['a', '̃']), ('ä', ['a', '̈']), ('å', ['a', '̊']),
   ('ç', ['c', '̧']),
   ('è', ['e', '̀']), ('é', ['e', '́']), ('ê', ['e', '̂']),
   ('ë', ['e', '̈']),
   ('ì', ['i', '̀']), ('í', ['i', '́']), ('î', ['i', '̂']),
   ('ï', ['i', '̈']),
   ('ñ', ['n', '̃']),
   ('ò', ['o', '̀']), ('ó', ['o', '́']), ('ô', ['o', '̂']),
   ('õ', ['o', '̃']), ('ö', ['o', '̈']),
   ('ù', ['u', '̀']), ('ú', ['u', '́']), ('û', ['u', '̂']),
   ('ü', ['u', '̈']),
   ('ý', ['y', '́']), ('ÿ', ['y', '̈']),
   ('ﬁ', ['f', 'i'])]

/-- NFKD decomposition of one character: table entry, else the character
itself (no decomposition). -/
def nfkdChar (c : Char) : List Char :=
  (nfkdTable.lookup c).getD [c]

/-- `unicodedata.normalize('NFKD', s)`. -/
def nfkdString (s : String) : String :=
  ⟨s.data.flatMap nfkdChar⟩

/-- `.encode('ascii', 'ignore').decode('utf-8')`: drop every non-ASCII
character. -/
def asciiIgnore (s : String) : String :=
  ⟨s.data.filter (fun c => c.toNat ≤ 127)⟩

/-- `_strip_diacritics` (qngng.py:187-188). -/
def _strip_diacritics (s : String) : String :=
  asciiIgnore (nfkdString s)

/-! ## `_normalize_name` and `format_name` -/

/-- `_normalize_name` (qngng.py:191-205): strip diacritics, optionally
lowercase, then keep alphanumerics and `'_'` and replace every other
character with `sep`. -/
def _normalize_name (name : String) (sep : String) (lower : Bool := true) : String :=
  let stripped := _strip_diacritics name
  let lowered := if lower then ⟨stripped.data.map pyLowerChar⟩ else stripped
  String.join (lowered.data.map
    (fun c => if pyIsAlnum c ∨ c = '_' then String.singleton c else sep))

/-- `self.middle_name[0].upper()`: the uppercased first character, as a
one-character string. -/
def upperFirstStr (m : String) : String :=
  String.singleton (pyUpperChar m.front)

/-- `FullName.middle_initial` (qngng.py:97-102): `ValueError` when there is
no middle name (`IndexError` from `[0]` on an empty one). -/
def FullName.middle_initial (fn : FullName) : Except PyError String :=
  match fn.middle_name with
  | none => .error .valueError
  | some m => if m = "" then .error .indexError else .ok (upperFirstStr m)

/-- The `parts` list assembled by `format_name` (qngng.py:210-227): each
part is appended only when truthy; the middle part is the initial (plus a
period in the default format) or the full middle name. -/
def _format_parts (fullname : FullName) (fmt : Format) (with_middle_initial : Bool) :
    List String :=
  (if fullname.name ≠ "" then [fullname.name] else []) ++
  (match fullname.middle_name with
   | some m =>
     if m ≠ "" then
       if with_middle_initial then
         [if fmt = Format.default then upperFirstStr m ++ "." else upperFirstStr m]
       else [m]
     else []
   | none => []) ++
  (if fullname.surname ≠ "" then [fullname.surname] else [])

/-- `raw_name = ' '.join(parts)` (qngng.py:229). -/
def _raw_name (fullname : FullName) (fmt : Format) (with_middle_initial : Bool) : String :=
  " ".intercalate (_format_parts fullname fmt with_middle_initial)

/-- `format_name` (qngng.py:208-242). -/
def format_name (fullname : FullName) (fmt : Format := Format.default)
    (with_middle_initial : Bool := true) : String :=
  let raw := _raw_name fullname fmt with_middle_initial
  match fmt with
  | .default => raw
  | .snake => _normalize_name raw "_"
  | .kebab => _normalize_name raw "-"
  | .camel =>
    let s := _normalize_name raw "" false
    if s = "" then s else String.singleton (pyLowerChar s.front) ++ s.drop 1
  | .capCamel => _normalize_name raw "" false

/-! ## Randomness model and the sampler -/

/-- `random.sample(xs, k)` after its length check: pick `k` elements at
distinct positions. Each step consumes one random value `r` and selects the
remaining element at position `r % remaining`, then removes it. -/
def pySampleGo {α : Type} [Inhabited α] : List α → List Nat → Nat → List α
  | _, _, 0 => []
  | [], _, _ + 1 => []
  | x :: xs, rs, k + 1 =>
    let l := x :: xs
    let i := rs.headD 0 % l.length
    l.getD i default :: pySampleGo (l.eraseIdx i) (rs.drop 1) k

/-- `random.sample(xs, k)`: raises `ValueError` when `k` exceeds the
population size, otherwise draws `k` elements without replacement. -/
def pySample {α : Type} [Inhabited α] (xs : List α) (k : Nat) (rs : List Nat) :
    Except PyError (List α) :=
  if k ≤ xs.length then .ok (pySampleGo xs rs k) else .error .valueError

/-- `random.choice(xs)`: raises `IndexError` on an empty sequence,
otherwise returns the element at the random position `r % len(xs)`. -/
def pyChoice {α : Type} (xs : List α) (r : Nat) : Except PyError α :=
  match xs with
  | [] => .error .indexError
  | x :: _ => .ok (xs.getD (r % xs.length) x)

/-- The random values consumed by one `random_full_name` call. -/
structure Draws where
  rcat : Nat
  rpick : Nat
  rnames : List Nat
  rsurnames : List Nat

/-! ## Pool building (`NameGenerator.__init__` and helpers)

The record loader (`_load_json_entries`) is an external collaborator: it is
passed in as a function from resource key to decoded record list, with an
absent source yielding `[]`. -/

/-- The `if entry.name and entry.surname: objs.append(FullName(...))` body
of `_get_cat_objs` for one entry (qngng.py:150-158): both fields must be
truthy (present and non-empty). -/
def entryFullName (g : Gender) (e : JsonEntry) : Option FullName :=
  if optStrTruthy e.name ∧ optStrTruthy e.surname then
    some ⟨e.name.getD "", e.surname.getD "", g, none⟩
  else none

/-- `_get_cat_objs` (qngng.py:145-160): load `{cat}-m` and/or `{cat}-f`
according to the gender filter, keeping entries with both fields truthy. -/
def _get_cat_objs (load : String → List JsonEntry) (gender : Option Gender)
    (cat : Category) : List FullName :=
  (if gender = none ∨ gender = some Gender.male then
    (load (cat.str ++ "-m")).filterMap (entryFullName Gender.male)
   else []) ++
  (if gender = none ∨ gender = some Gender.female then
    (load (cat.str ++ "-f")).filterMap (entryFullName Gender.female)
   else [])

/-- The first-name pool built by `_create_std_objs` (qngng.py:162-171):
entries of `std-names-m` / `std-names-f` with a truthy `name`, tagged with
the gender of their source file. -/
def stdNameObjs (load : String → List JsonEntry) (gender : Option Gender) :
    List PartialName :=
  (if gender = none ∨ gender = some Gender.male then
    (load "std-names-m").filterMap
      (fun e => if optStrTruthy e.name then
        some ⟨e.name.getD "", some Gender.male⟩ else none)
   else []) ++
  (if gender = none ∨ gender = some Gender.female then
    (load "std-names-f").filterMap
      (fun e => if optStrTruthy e.name then
        some ⟨e.name.getD "", some Gender.female⟩ else none)
   else [])

/-- The surname pool built by `_create_std_objs` (qngng.py:173-175):
entries of `std-surnames` with a truthy `surname`, ungendered. -/
def stdSurnameObjs (load : String → List JsonEntry) : List PartialName :=
  (load "std-surnames").filterMap
    (fun e => if optStrTruthy e.surname then some ⟨e.surname.getD "", none⟩ else none)

/-- The generator state set up by `NameGenerator.__init__` (qngng.py:105-115).
The requested category frozenset is modelled as a duplicate-free list giving
the iteration order; `_cat_objs` is its `dict` as an association list. -/
structure NameGenerator where
  surname_count : Nat
  with_middle_name : Bool
  gender : Option Gender
  cat_objs : List (Category × List FullName)
  name_objs : List PartialName
  surname_objs : List PartialName

/-- `_create_objs` (qngng.py:177-184) composed with `__init__`: always build
the standard pools, register `std` with an empty placeholder list when
requested, and build one `FullName` list per other requested category. -/
def mkNameGenerator (load : String → List JsonEntry) (surname_count : Nat)
    (with_middle_name : Bool) (gender : Option Gender) (categories : List Category) :
    NameGenerator where
  surname_count := surname_count
  with_middle_name := with_middle_name
  gender := gender
  cat_objs :=
    (if Category.std ∈ categories then [(Category.std, [])] else []) ++
    (categories.filter (· ≠ Category.std)).map
      (fun c => (c, _get_cat_objs load gender c))
  name_objs := stdNameObjs load gender
  surname_objs := stdSurnameObjs load

/-- `_random_std_full_name` (qngng.py:125-132): sample `2 if with_middle_name
else 1` distinct first names and `surname_count` distinct surnames, join the
surname texts with `'-'`; the gender is `first.gender or Gender.MALE`. -/
def _random_std_full_name (gen : NameGenerator) (d : Draws) : Except PyError FullName :=
  match pySample gen.name_objs (if gen.with_middle_name then 2 else 1) d.rnames with
  | .error e => .error e
  | .ok ns =>
    match pySample gen.surname_objs gen.surname_count d.rsurnames with
    | .error e => .error e
    | .ok ss =>
      .ok ⟨(ns.headD default).name,
        String.intercalate "-" (ss.map PartialName.name),
        (ns.headD default).gender.getD Gender.male,
        if gen.with_middle_name then some ((ns.getD 1 default).name) else none⟩

/-- `random_full_name` (qngng.py:117-123): choose a category uniformly among
the registered keys; `std` composes a name from the standard pools, any other
category picks one pre-built entry. -/
def random_full_name (gen : NameGenerator) (d : Draws) : Except PyError FullName :=
  match pyChoice (gen.cat_objs.map Prod.fst) d.rcat with
  | .error e => .error e
  | .ok rand_cat =>
    if rand_cat = Category.std then
      _random_std_full_name gen d
    else
      pyChoice ((gen.cat_objs.lookup rand_cat).getD []) d.rpick

/-! ## `_spin_wheel` (qngng.py:245-265)

The terminal side effects of one run are modelled as an event trace.
`names i` is the formatted name produced by the sampler+formatter at
iteration `i` (the animator treats that pair as an opaque generate-and-format
collaborator). Erasing the previous line (`'\r'`, spaces, `'\r'`) is one
`erase` event; `time.sleep(dur)` is a `sleep` event carrying the exact
duration; the final `print()` is one `newline` event. The `while True` loop
is embedded with explicit fuel; `spinWheelGo_closed_form` below shows any
fuel of at least 53 iterations is never exhausted, so the fuel of 60 used by
`_spin_wheel` reproduces the loop exactly. -/

/-- One terminal side effect of the wheel animator. -/
inductive WheelEvent where
  | erase
  | write (s : String)
  | sleep (dur : ℚ)
  | newline
deriving DecidableEq, Repr

/-- The loop of `_spin_wheel`: at counter value `x`, erase and rewrite the
line with the `i`-th name, compute `dur = x**10 + 0.05`, set `x += 0.02`,
sleep and continue while `x <= 1.05`, else break and print the newline. -/
def spinWheelGo (names : Nat → String) (i : Nat) (x : ℚ) : Nat → List WheelEvent
  | 0 => []
  | fuel + 1 =>
    let dur := x ^ 10 + 1 / 20
    let x2 := x + 1 / 50
    if x2 ≤ 21 / 20 then
      WheelEvent.erase :: WheelEvent.write (names i) :: WheelEvent.sleep dur ::
        spinWheelGo names (i + 1) x2 fuel
    else
      [WheelEvent.erase, WheelEvent.write (names i), WheelEvent.newline]

/-- `_spin_wheel` (qngng.py:245-265): run the loop from `x = 0.0`. -/
def _spin_wheel (names : Nat → String) : List WheelEvent :=
  spinWheelGo names 0 0 60

/-- Is this event a `write`? -/
def WheelEvent.isWrite : WheelEvent → Bool
  | .write _ => true
  | _ => false

/-- Is this event a `sleep`? -/
def WheelEvent.isSleep : WheelEvent → Bool
  | .sleep _ => true
  | _ => false

/-- Is this event the trailing `newline`? -/
def WheelEvent.isNewline : WheelEvent → Bool
  | .newline => true
  | _ => false

/-- The durations of the `sleep` events of a trace, in order. -/
def sleepDurations (evs : List WheelEvent) : List ℚ :=
  evs.filterMap (fun e => match e with
    | .sleep d => some d
    | _ => none)

/-! ## Spec-side definitions (for refinement comparisons)

These definitions follow the spec's words, not the source; each is compared
with the corresponding source-derived definition above. -/

/-- A Unicode combining diacritical mark (U+0300–U+036F). -/
def isCombiningMark (c : Char) : Bool :=
  0x300 ≤ c.toNat ∧ c.toNat ≤ 0x36F

/-- Canonical (NFD) decompositions: the canonical subset of `nfkdTable` —
the `'ﬁ'` ligature is a compatibility-only decomposition, every Latin-1
letter decomposition is canonical. -/
def canonicalTable : List (Char × List Char) :=
  nfkdTable.filter (fun p => p.1 ≠ 'ﬁ')

/-- Modelled from the spec: "diacritics stripped (canonical decomposition,
drop all non-ASCII combining marks)" — canonically decompose, then drop
exactly the characters that are non-ASCII combining marks, keeping every
other character in place. -/
def specStripDiacritics (s : String) : String :=
  ⟨(s.data.flatMap (fun c => (canonicalTable.lookup c).getD [c])).filter
    (fun c => ¬(127 < c.toNat ∧ isCombiningMark c))⟩

/-- Modelled from the spec: "Assembly order: given-name, then (if middle
name present) either the middle initial (first character, uppercased, plus a
literal period only in the default format) or the full middle name (per
`withMiddleInitial`), then surname." -/
def specAssembleParts (fn : FullName) (fmt : Format) (with_middle_initial : Bool) :
    List String :=
  [fn.name] ++
  (match fn.middle_name with
   | some m =>
     [if with_middle_initial then
        upperFirstStr m ++ (if fmt = Format.default then "." else "")
      else m]
   | none => []) ++
  [fn.surname]

/-- Modelled from the spec: "Parts are joined with a single space to form a
raw name string." -/
def specRawName (fn : FullName) (fmt : Format) (with_middle_initial : Bool) : String :=
  " ".intercalate (specAssembleParts fn fmt with_middle_initial)

/-- The amended assembly: as `specAssembleParts`, but a middle name equal to
`""` counts as absent and empty parts are skipped. -/
def specAssemblePartsAmended (fn : FullName) (fmt : Format)
    (with_middle_initial : Bool) : List String :=
  ([fn.name] ++
   (match fn.middle_name with
    | some m =>
      if m ≠ "" then
        [if with_middle_initial then
           upperFirstStr m ++ (if fmt = Format.default then "." else "")
         else m]
      else []
    | none => []) ++
   [fn.surname]).filter (· ≠ "")

/-- The amended raw name: non-empty parts joined with single spaces. -/
def specRawNameAmended (fn : FullName) (fmt : Format)
    (with_middle_initial : Bool) : String :=
  " ".intercalate (specAssemblePartsAmended fn fmt with_middle_initial)

/-! ## Concrete record loaders for witnesses -/

/-- A loader with two standard first names, two standard surnames and one
`lbl` male entry. -/
def loadSample : String → List JsonEntry
  | "std-names-m" => [⟨some "Jean", none⟩, ⟨some "Marc", none⟩]
  | "std-names-f" => [⟨some "Marie", none⟩]
  | "std-surnames" => [⟨none, some "Tremblay"⟩, ⟨none, some "Gagnon"⟩]
  | "lbl-m" => [⟨some "Gilles", some "Proulx"⟩]
  | _ => []

/-- A loader whose every source is absent. -/
def loadEmpty : String → List JsonEntry :=
  fun _ => []

deriving instance DecidableEq for Except

/-! # Theorems -/

/-- The loop of `_spin_wheel`, started at `x = i/50` with fuel for at least
`53 - i` more iterations, runs exactly until the counter passes 1.05:
iterations `i, i+1, …, 51` erase, write and sleep `x^10 + 0.05` seconds,
and iteration `52` erases, writes and stops with the single newline. -/
theorem spinWheelGo_closed_form (names : Nat → String) :
    ∀ fuel i, i ≤ 52 → 53 - i ≤ fuel →
      spinWheelGo names i ((i : ℚ) / 50) fuel =
        ((List.range (52 - i)).flatMap (fun t =>
          [WheelEvent.erase, WheelEvent.write (names (i + t)),
           WheelEvent.sleep ((((i + t : ℕ) : ℚ) / 50) ^ 10 + 1 / 20)])) ++
        [WheelEvent.erase, WheelEvent.write (names 52), WheelEvent.newline] := by
  intro fuel
  induction fuel with
  | zero => intro i h1 h2; omega
  | succ fuel ih =>
    intro i h1 h2
    by_cases hc : i ≤ 51
    · have hcond : (i : ℚ) / 50 + 1 / 50 ≤ 21 / 20 := by
        have hi : (i : ℚ) ≤ 51 := by exact_mod_cast hc
        linarith
      have hx : (i : ℚ) / 50 + 1 / 50 = ((i + 1 : ℕ) : ℚ) / 50 := by push_cast; ring
      have h52 : 52 - i = (51 - i) + 1 := by omega
      have h51 : 52 - (i + 1) = 51 - i := by omega
      simp only [spinWheelGo, if_pos hcond]
      rw [hx, ih (i + 1) (by omega) (by omega), h51, h52,
        List.range_succ_eq_map, List.flatMap_cons, List.flatMap_map]
      simp only [Nat.add_zero, List.cons_append, List.append_assoc, List.nil_append]
      congr 3
      refine congrArg₂ (· ++ ·) (congrArg _ (funext fun t => ?_)) rfl
      have ht : i + 1 + t = i + t.succ := by omega
      rw [ht]
    · have hi : i = 52 := by omega
      subst hi
      have hcond : ¬((52 : ℚ) / 50 + 1 / 50 ≤ 21 / 20) := by norm_num
      simp only [spinWheelGo, if_neg hcond]
      norm_num

/-- A block of per-iteration wheel events contains one `write` per
iteration. -/
theorem wheel_triple_countP_write (f : Nat → String) (g : Nat → ℚ) :
    ∀ ts : List Nat,
      ((ts.flatMap (fun t =>
        [WheelEvent.erase, WheelEvent.write (f t), WheelEvent.sleep (g t)])).countP
          WheelEvent.isWrite) = ts.length
  | [] => rfl
  | t :: ts => by
    simp [List.flatMap_cons, List.countP_append, List.countP_cons,
      WheelEvent.isWrite, wheel_triple_countP_write f g ts]

/-- A block of per-iteration wheel events contains one `sleep` per
iteration. -/
theorem wheel_triple_countP_sleep (f : Nat → String) (g : Nat → ℚ) :
    ∀ ts : List Nat,
      ((ts.flatMap (fun t =>
        [WheelEvent.erase, WheelEvent.write (f t), WheelEvent.sleep (g t)])).countP
          WheelEvent.isSleep) = ts.length
  | [] => rfl
  | t :: ts => by
    simp [List.flatMap_cons, List.countP_append, List.countP_cons,
      WheelEvent.isSleep, wheel_triple_countP_sleep f g ts]

/-- A block of per-iteration wheel events contains no `newline`. -/
theorem wheel_triple_countP_newline (f : Nat → String) (g : Nat → ℚ) :
    ∀ ts : List Nat,
      ((ts.flatMap (fun t =>
        [WheelEvent.erase, WheelEvent.write (f t), WheelEvent.sleep (g t)])).countP
          WheelEvent.isNewline) = 0
  | [] => rfl
  | t :: ts => by
    simp [List.flatMap_cons, List.countP_append, List.countP_cons,
      WheelEvent.isNewline, wheel_triple_countP_newline f g ts]

/-- The sleep durations of a block of per-iteration wheel events are the
per-iteration durations, in order. -/
theorem wheel_triple_sleepDurations (f : Nat → String) (g : Nat → ℚ) :
    ∀ ts : List Nat,
      sleepDurations (ts.flatMap (fun t =>
        [WheelEvent.erase, WheelEvent.write (f t), WheelEvent.sleep (g t)])) = ts.map g
  | [] => rfl
  | t :: ts => by
    simp [sleepDurations, List.flatMap_cons, List.filterMap_append]
    simpa [sleepDurations] using wheel_triple_sleepDurations f g ts

/-- C8: the wheel animator's loop always terminates within about 53
iterations — the counter starts at 0.0 and grows by 0.02 per iteration,
each iteration's delay of `x^10 + 0.05` seconds is slept only while `x`
stays at most 1.05, and once `x` exceeds 1.05 the loop stops immediately
with no trailing sleep, leaving the last-written name visible and writing
exactly one trailing newline: the full trace is 53 write iterations, the
first 52 followed by their sleeps, the 53rd followed only by the single
newline. -/
theorem spin_wheel_c8 (names : Nat → String) :
    _spin_wheel names =
      ((List.range 52).flatMap (fun t =>
        [WheelEvent.erase, WheelEvent.write (names t),
         WheelEvent.sleep (((t : ℚ) / 50) ^ 10 + 1 / 20)])) ++
      [WheelEvent.erase, WheelEvent.write (names 52), WheelEvent.newline] ∧
    ((_spin_wheel names).countP WheelEvent.isWrite) = 53 ∧
    ((_spin_wheel names).countP WheelEvent.isSleep) = 52 ∧
    ((_spin_wheel names).countP WheelEvent.isNewline) = 1 ∧
    sleepDurations (_spin_wheel names) =
      (List.range 52).map (fun t : Nat => ((t : ℚ) / 50) ^ 10 + 1 / 20) := by
  have h0 := spinWheelGo_closed_form names 60 0 (by norm_num) (by norm_num)
  have hmain : _spin_wheel names =
      ((List.range 52).flatMap (fun t =>
        [WheelEvent.erase, WheelEvent.write (names t),
         WheelEvent.sleep (((t : ℚ) / 50) ^ 10 + 1 / 20)])) ++
      [WheelEvent.erase, WheelEvent.write (names 52), WheelEvent.newline] := by
    unfold _spin_wheel
    simpa using h0
  refine ⟨hmain, ?_, ?_, ?_, ?_⟩
  · rw [hmain, List.countP_append, wheel_triple_countP_write]
    simp [WheelEvent.isWrite, List.countP_cons]
  · rw [hmain, List.countP_append, wheel_triple_countP_sleep]
    simp [WheelEvent.isSleep, List.countP_cons]
  · rw [hmain, List.countP_append, wheel_triple_countP_newline]
    simp [WheelEvent.isNewline, List.countP_cons]
  · rw [hmain]
    unfold sleepDurations
    rw [List.filterMap_append]
    have hblock := wheel_triple_sleepDurations names
      (fun t => ((t : ℚ) / 50) ^ 10 + 1 / 20) (List.range 52)
    unfold sleepDurations at hblock
    rw [hblock]
    have h2 : List.filterMap (fun e => match e with
        | WheelEvent.sleep d => some d
        | _ => none)
        [WheelEvent.erase, WheelEvent.write (names 52), WheelEvent.newline] = [] := rfl
    rw [h2, List.append_nil]

/-- C4: formatting the FullName "Jean" / "Tremblay" / middle "Pierre"
yields "jeanPTremblay" in CAMEL with the middle initial, "JeanPTremblay"
in CAP_CAMEL with the middle initial, and "jean_pierre_tremblay" in SNAKE
without the middle initial. -/
theorem format_name_c4_scenario :
    format_name ⟨"Jean", "Tremblay", Gender.male, some "Pierre"⟩ Format.camel true =
      "jeanPTremblay" ∧
    format_name ⟨"Jean", "Tremblay", Gender.male, some "Pierre"⟩ Format.capCamel true =
      "JeanPTremblay" ∧
    format_name ⟨"Jean", "Tremblay", Gender.male, some "Pierre"⟩ Format.snake false =
      "jean_pierre_tremblay" := by
  decide

/-- C9: formatting is deterministic — the formatter is a pure function of
the FullName, the format and the with-middle-initial flag, so two calls
with equal arguments yield identical output strings. -/
theorem format_name_deterministic (fn₁ fn₂ : FullName) (fmt₁ fmt₂ : Format)
    (b₁ b₂ : Bool) (h1 : fn₁ = fn₂) (h2 : fmt₁ = fmt₂) (h3 : b₁ = b₂) :
    format_name fn₁ fmt₁ b₁ = format_name fn₂ fmt₂ b₂ := by
  subst h1
  subst h2
  subst h3
  rfl

/-- Witness for C9 at a concrete FullName and format. -/
theorem format_name_deterministic_witness :
    format_name ⟨"Jean", "Tremblay", Gender.male, some "Pierre"⟩ Format.snake true =
    format_name ⟨"Jean", "Tremblay", Gender.male, some "Pierre"⟩ Format.snake true :=
  format_name_deterministic _ _ _ _ _ _ rfl rfl rfl

/-- C2 counterexample: `'ø'` is a non-ASCII letter with no decomposition
and is not a combining mark, so under the claimed rule it survives
stripping; the code's stripping drops it (`encode('ascii', 'ignore')` drops
every non-ASCII character, not only combining marks). -/
theorem strip_diacritics_c2_counterexample :
    _strip_diacritics "ø" = "" ∧ specStripDiacritics "ø" = "ø" ∧
    _strip_diacritics "ø" ≠ specStripDiacritics "ø" := by
  decide

/-- Looking up an ASCII character in a table whose keys are all non-ASCII
finds nothing. -/
theorem lookup_none_of_keys_nonascii (c : Char) (h : c.toNat ≤ 127) :
    ∀ l : List (Char × List Char), (∀ p ∈ l, 127 < p.1.toNat) → l.lookup c = none := by
  intro l
  induction l with
  | nil => intro _; rfl
  | cons p tl ih =>
    intro hl
    have hkey : ¬(c == p.1) := by
      intro hb
      have hcp : c = p.1 := eq_of_beq hb
      rw [hcp] at h
      have := hl p (List.mem_cons_self _ _)
      omega
    simp only [List.lookup, hkey]
    · exact ih (fun q hq => hl q (List.mem_cons_of_mem _ hq))

/-- ASCII characters have no NFKD decomposition. -/
theorem nfkdChar_ascii (c : Char) (h : c.toNat ≤ 127) : nfkdChar c = [c] := by
  unfold nfkdChar
  rw [lookup_none_of_keys_nonascii c h nfkdTable (by decide)]
  rfl

/-- Decompose-then-drop-non-ASCII is the identity on all-ASCII character
lists. -/
theorem strip_ascii_list (l : List Char) (h : ∀ c ∈ l, c.toNat ≤ 127) :
    (l.flatMap nfkdChar).filter (fun c => c.toNat ≤ 127) = l := by
  induction l with
  | nil => rfl
  | cons c tl ih =>
    rw [List.flatMap_cons, List.filter_append, nfkdChar_ascii c (h c (List.mem_cons_self _ _))]
    rw [ih (fun x hx => h x (List.mem_cons_of_mem _ hx))]
    simp [h c (List.mem_cons_self _ _)]

/-- C2 (amended): the diacritic-stripping step performs compatibility
(NFKD) decomposition and then drops every non-ASCII character — not only
the combining marks — so its output is always pure ASCII, and an all-ASCII
input passes through unchanged. -/
theorem strip_diacritics_c2_amended (s : String) :
    _strip_diacritics s = asciiIgnore (nfkdString s) ∧
    (∀ c ∈ (_strip_diacritics s).data, c.toNat ≤ 127) ∧
    ((∀ c ∈ s.data, c.toNat ≤ 127) → _strip_diacritics s = s) := by
  refine ⟨rfl, ?_, ?_⟩
  · intro c hc
    simp only [_strip_diacritics, asciiIgnore, nfkdString, List.mem_filter] at hc
    exact of_decide_eq_true hc.2
  · intro hascii
    show asciiIgnore (nfkdString s) = s
    unfold asciiIgnore nfkdString
    rw [strip_ascii_list s.data hascii]

/-- Witness for the amended C2 at a concrete ASCII string. -/
theorem strip_diacritics_c2_amended_witness :
    _strip_diacritics "Gagne" = "Gagne" :=
  (strip_diacritics_c2_amended "Gagne").2.2 (by decide)

/-- C6: with a middle name set (and non-empty, per the FullName invariant),
`middle_initial` is the uppercased first character of the middle name; with
no middle name it raises `ValueError` — it never returns a value. -/
theorem middle_initial_c6 (fn : FullName) :
    (∀ m, fn.middle_name = some m → m ≠ "" →
      fn.middle_initial = Except.ok (String.singleton (pyUpperChar m.front))) ∧
    (fn.middle_name = none →
      fn.middle_initial = Except.error PyError.valueError ∧
      ∀ s, fn.middle_initial ≠ Except.ok s) := by
  constructor
  · intro m hm hne
    simp [FullName.middle_initial, hm, hne, upperFirstStr]
  · intro hn
    refine ⟨by simp [FullName.middle_initial, hn], ?_⟩
    intro s hs
    simp [FullName.middle_initial, hn] at hs

/-- Witness for C6 at concrete FullNames with and without a middle name. -/
theorem middle_initial_c6_witness :
    FullName.middle_initial ⟨"Jean", "Tremblay", Gender.male, some "Pierre"⟩ =
      Except.ok (String.singleton (pyUpperChar "Pierre".front)) ∧
    FullName.middle_initial ⟨"Jean", "Tremblay", Gender.male, none⟩ =
      Except.error PyError.valueError :=
  ⟨(middle_initial_c6 _).1 "Pierre" rfl (by decide),
   ((middle_initial_c6 _).2 rfl).1⟩

/-- C5 counterexample: on a FullName whose given name is the empty string
the formatter skips the empty part, while the claimed unconditional
assembly would join it in, leaving a leading space. -/
theorem format_name_c5_counterexample :
    format_name ⟨"", "Tremblay", Gender.male, none⟩ Format.default true = "Tremblay" ∧
    specRawName ⟨"", "Tremblay", Gender.male, none⟩ Format.default true = " Tremblay" ∧
    format_name ⟨"", "Tremblay", Gender.male, none⟩ Format.default true ≠
      specRawName ⟨"", "Tremblay", Gender.male, none⟩ Format.default true := by
  decide

/-- A one-character string is not empty. -/
theorem upperFirstStr_ne_empty (m : String) : upperFirstStr m ≠ "" := by
  unfold upperFirstStr
  intro h
  have hd := congrArg String.data h
  simp [String.singleton] at hd

/-- Appending a period never yields the empty string. -/
theorem append_dot_ne_empty (s : String) : s ++ "." ≠ "" := by
  intro h
  have hd := congrArg String.data h
  rw [String.data_append] at hd
  simp at hd

/-- The parts list the code assembles equals the amended spec assembly
(empty parts skipped, empty middle name treated as absent). -/
theorem format_parts_eq_amended (fn : FullName) (fmt : Format) (b : Bool) :
    _format_parts fn fmt b = specAssemblePartsAmended fn fmt b := by
  unfold _format_parts specAssemblePartsAmended
  rw [List.filter_append, List.filter_append]
  congr 1
  · congr 1
    · by_cases hn : fn.name = "" <;> simp [hn]
    · cases hm : fn.middle_name with
      | none => simp
      | some m =>
        by_cases hme : m = ""
        · simp [hme]
        · cases b with
          | false => simp [hme]
          | true =>
            by_cases hf : fmt = Format.default
            · simp [hme, hf, append_dot_ne_empty]
            · simp [hme, hf, upperFirstStr_ne_empty]
  · by_cases hs : fn.surname = "" <;> simp [hs]

/-- C5 (amended): the formatter assembles the given name (when non-empty),
then — only when a non-empty middle name is present — either the uppercased
first character of the middle name (followed by a literal period only in
the DEFAULT format) or the full middle name depending on
`with_middle_initial`, then the surname (when non-empty), joined by single
spaces; in DEFAULT format this raw joined string is returned unchanged. -/
theorem format_name_c5_amended (fn : FullName) (fmt : Format) (b : Bool) :
    _raw_name fn fmt b = specRawNameAmended fn fmt b ∧
    format_name fn Format.default b = specRawNameAmended fn Format.default b := by
  constructor
  · unfold _raw_name specRawNameAmended
    rw [format_parts_eq_amended]
  · show _raw_name fn Format.default b = _
    unfold _raw_name specRawNameAmended
    rw [format_parts_eq_amended]

/-- A truthy optional string is kept with its non-empty value. -/
theorem optStrTruthy_getD {o : Option String} (h : optStrTruthy o = true) :
    o.getD "" ≠ "" := by
  cases o with
  | none => simp [optStrTruthy] at h
  | some s => simpa [optStrTruthy] using h

/-- A record accepted by the `_get_cat_objs` filter yields a FullName with
non-empty name and surname, the source gender and no middle name. -/
theorem entryFullName_some {g : Gender} {e : JsonEntry} {fn : FullName}
    (h : entryFullName g e = some fn) :
    fn.name ≠ "" ∧ fn.surname ≠ "" ∧ fn.gender = g ∧ fn.middle_name = none := by
  unfold entryFullName at h
  by_cases hc : optStrTruthy e.name ∧ optStrTruthy e.surname
  · rw [if_pos hc] at h
    cases Option.some.inj h
    exact ⟨optStrTruthy_getD hc.1, optStrTruthy_getD hc.2, rfl, rfl⟩
  · rw [if_neg hc] at h
    cases h

/-- A record with a missing or empty field is excluded from every non-std
category list. -/
theorem entryFullName_none (g : Gender) (e : JsonEntry)
    (h : e.name = none ∨ e.name = some "" ∨ e.surname = none ∨ e.surname = some "") :
    entryFullName g e = none := by
  rcases h with h | h | h | h <;> simp [entryFullName, optStrTruthy, h]

/-- Every member of a non-std category list has non-empty fields, no middle
name, and the filter gender when one is set. -/
theorem mem_get_cat_objs {load : String → List JsonEntry} {g? : Option Gender}
    {cat : Category} {fn : FullName} (h : fn ∈ _get_cat_objs load g? cat) :
    fn.name ≠ "" ∧ fn.surname ≠ "" ∧ fn.middle_name = none ∧
      (∀ g, g? = some g → fn.gender = g) := by
  unfold _get_cat_objs at h
  rw [List.mem_append] at h
  cases h with
  | inl h =>
    by_cases hcond : g? = none ∨ g? = some Gender.male
    · rw [if_pos hcond] at h
      obtain ⟨e, _, hfe⟩ := List.mem_filterMap.mp h
      obtain ⟨h1, h2, h3, h4⟩ := entryFullName_some hfe
      refine ⟨h1, h2, h4, ?_⟩
      intro g hg
      rw [hg] at hcond
      rcases hcond with hc | hc
      · cases hc
      · cases Option.some.inj hc
        exact h3
    · rw [if_neg hcond] at h
      cases h
  | inr h =>
    by_cases hcond : g? = none ∨ g? = some Gender.female
    · rw [if_pos hcond] at h
      obtain ⟨e, _, hfe⟩ := List.mem_filterMap.mp h
      obtain ⟨h1, h2, h3, h4⟩ := entryFullName_some hfe
      refine ⟨h1, h2, h4, ?_⟩
      intro g hg
      rw [hg] at hcond
      rcases hcond with hc | hc
      · cases hc
      · cases Option.some.inj hc
        exact h3
    · rw [if_neg hcond] at h
      cases h

/-- Every first-name pool entry has a non-empty name, a gender tag, and the
filter gender when one is set. -/
theorem mem_stdNameObjs {load : String → List JsonEntry} {g? : Option Gender}
    {p : PartialName} (h : p ∈ stdNameObjs load g?) :
    p.name ≠ "" ∧ p.gender.isSome ∧ (∀ g, g? = some g → p.gender = some g) := by
  unfold stdNameObjs at h
  rw [List.mem_append] at h
  cases h with
  | inl h =>
    by_cases hcond : g? = none ∨ g? = some Gender.male
    · rw [if_pos hcond] at h
      obtain ⟨e, _, hfe⟩ := List.mem_filterMap.mp h
      by_cases ht : optStrTruthy e.name
      · rw [if_pos ht] at hfe
        cases Option.some.inj hfe
        refine ⟨optStrTruthy_getD ht, rfl, ?_⟩
        intro g hg
        rw [hg] at hcond
        rcases hcond with hc | hc
        · cases hc
        · cases Option.some.inj hc
          rfl
      · rw [if_neg ht] at hfe
        cases hfe
    · rw [if_neg hcond] at h
      cases h
  | inr h =>
    by_cases hcond : g? = none ∨ g? = some Gender.female
    · rw [if_pos hcond] at h
      obtain ⟨e, _, hfe⟩ := List.mem_filterMap.mp h
      by_cases ht : optStrTruthy e.name
      · rw [if_pos ht] at hfe
        cases Option.some.inj hfe
        refine ⟨optStrTruthy_getD ht, rfl, ?_⟩
        intro g hg
        rw [hg] at hcond
        rcases hcond with hc | hc
        · cases hc
        · cases Option.some.inj hc
          rfl
      · rw [if_neg ht] at hfe
        cases hfe
    · rw [if_neg hcond] at h
      cases h

/-- Every surname pool entry has a non-empty name and no gender. -/
theorem mem_stdSurnameObjs {load : String → List JsonEntry} {p : PartialName}
    (h : p ∈ stdSurnameObjs load) : p.name ≠ "" ∧ p.gender = none := by
  unfold stdSurnameObjs at h
  obtain ⟨e, _, hfe⟩ := List.mem_filterMap.mp h
  by_cases ht : optStrTruthy e.surname
  · rw [if_pos ht] at hfe
    cases Option.some.inj hfe
    exact ⟨optStrTruthy_getD ht, rfl⟩
  · rw [if_neg ht] at hfe
    cases hfe

/-- A successful `random.choice` returns a member of the sequence. -/
theorem pyChoice_ok_mem {α : Type} {xs : List α} {r : Nat} {a : α}
    (h : pyChoice xs r = .ok a) : a ∈ xs := by
  unfold pyChoice at h
  cases xs with
  | nil => cases h
  | cons x t =>
    cases Except.ok.inj h
    have hlt : r % (x :: t).length < (x :: t).length := Nat.mod_lt _ (by simp)
    rw [List.getD_eq_getElem _ _ hlt]
    exact List.getElem_mem hlt

/-- A successful `random.sample` means the request fit the population, and
the result is the drawn selection. -/
theorem pySample_ok {α : Type} [Inhabited α] {xs : List α} {k : Nat} {rs : List Nat}
    {l : List α} (h : pySample xs k rs = .ok l) :
    k ≤ xs.length ∧ l = pySampleGo xs rs k := by
  unfold pySample at h
  by_cases hk : k ≤ xs.length
  · rw [if_pos hk] at h
    exact ⟨hk, (Except.ok.inj h).symm⟩
  · rw [if_neg hk] at h
    cases h

/-- `random.sample` raises `ValueError` when the request exceeds the
population. -/
theorem pySample_err {α : Type} [Inhabited α] {xs : List α} {k : Nat} (rs : List Nat)
    (h : xs.length < k) : pySample xs k rs = .error PyError.valueError := by
  unfold pySample
  rw [if_neg (by omega)]

/-- `random.sample` draws exactly `k` elements when `k` fits. -/
theorem pySampleGo_length {α : Type} [Inhabited α] :
    ∀ (k : Nat) (xs : List α) (rs : List Nat), k ≤ xs.length →
      (pySampleGo xs rs k).length = k := by
  intro k
  induction k with
  | zero => intro xs rs _; cases xs <;> rfl
  | succ k ih =>
    intro xs rs hk
    cases xs with
    | nil => simp at hk
    | cons x t =>
      rw [List.length_cons] at hk
      have hi : rs.headD 0 % (t.length + 1) < (x :: t).length := by
        rw [List.length_cons]
        exact Nat.mod_lt _ (Nat.succ_pos _)
      have hlen : ((x :: t).eraseIdx (rs.headD 0 % (t.length + 1))).length = t.length := by
        rw [List.length_eraseIdx_of_lt hi, List.length_cons]
        omega
      simp only [pySampleGo, List.length_cons]
      rw [ih _ _ (by rw [hlen]; omega)]

/-- Pulling the element at a valid position to the front is a permutation. -/
theorem cons_getElem_eraseIdx_perm {α : Type} (l : List α) (i : Nat) (h : i < l.length) :
    List.Perm (l[i] :: l.eraseIdx i) l := by
  rw [List.eraseIdx_eq_take_drop_succ]
  have h1 : List.Perm (l[i] :: (l.take i ++ l.drop (i + 1)))
      (l.take i ++ l[i] :: l.drop (i + 1)) := List.perm_middle.symm
  rw [List.getElem_cons_drop, List.take_append_drop] at h1
  exact h1

/-- `random.sample` draws without replacement: the selection is a
sub-permutation of the population (each position used at most once). -/
theorem pySampleGo_subperm {α : Type} [Inhabited α] :
    ∀ (k : Nat) (xs : List α) (rs : List Nat), List.Subperm (pySampleGo xs rs k) xs := by
  intro k
  induction k with
  | zero => intro xs rs; cases xs <;> exact List.nil_subperm
  | succ k ih =>
    intro xs rs
    cases xs with
    | nil => exact List.nil_subperm
    | cons x t =>
      have hpos : 0 < (x :: t).length := by simp
      have hilt : rs.headD 0 % (x :: t).length < (x :: t).length :=
        Nat.mod_lt _ hpos
      simp only [pySampleGo]
      rw [List.getD_eq_getElem _ _ hilt]
      exact ((List.subperm_cons _).mpr (ih _ _)).trans
        (cons_getElem_eraseIdx_perm _ _ hilt).subperm

/-- A sub-permutation of a duplicate-free list is duplicate-free. -/
theorem subperm_nodup {α : Type} {l₁ l₂ : List α} (h : List.Subperm l₁ l₂)
    (hn : l₂.Nodup) : l₁.Nodup := by
  obtain ⟨l, hperm, hsub⟩ := h
  exact hperm.nodup (List.Nodup.sublist hsub hn)

/-- C3 (amended): sampling fails whenever the requested draw exceeds the
available data — when the chosen category is std and the first-name pool
has fewer than `1 + includeMiddleName` entries or the surname pool fewer
than `surnameCount` entries, `random.sample` raises `ValueError`; when the
chosen category is non-std and its pre-built list is empty, `random.choice`
raises `IndexError`. The two are Python builtin exceptions of different
kinds, not one dedicated InsufficientDataError. -/
theorem insufficient_c3_amended (gen : NameGenerator) (d : Draws) :
    (pyChoice (gen.cat_objs.map Prod.fst) d.rcat = Except.ok Category.std →
      (gen.name_objs.length < (if gen.with_middle_name then 2 else 1) ∨
        gen.surname_objs.length < gen.surname_count) →
      random_full_name gen d = Except.error PyError.valueError) ∧
    (∀ c, pyChoice (gen.cat_objs.map Prod.fst) d.rcat = Except.ok c →
      c ≠ Category.std → gen.cat_objs.lookup c = some [] →
      random_full_name gen d = Except.error PyError.indexError) := by
  constructor
  · intro hchoice hins
    unfold random_full_name
    rw [hchoice]
    show _random_std_full_name gen d = Except.error PyError.valueError
    unfold _random_std_full_name
    by_cases h1 : (if gen.with_middle_name then 2 else 1) ≤ gen.name_objs.length
    · have h2 : gen.surname_objs.length < gen.surname_count := by
        rcases hins with h | h
        · omega
        · exact h
      have hs : pySample gen.name_objs (if gen.with_middle_name then 2 else 1) d.rnames =
          .ok (pySampleGo gen.name_objs d.rnames (if gen.with_middle_name then 2 else 1)) := by
        unfold pySample
        rw [if_pos h1]
      rw [hs, pySample_err d.rsurnames h2]
    · rw [pySample_err d.rnames
        (show gen.name_objs.length < (if gen.with_middle_name then 2 else 1) by omega)]
  · intro c hchoice hne hlk
    unfold random_full_name
    rw [hchoice]
    show (if c = Category.std then _random_std_full_name gen d
      else pyChoice ((gen.cat_objs.lookup c).getD []) d.rpick) = _
    rw [if_neg hne, hlk]
    rfl

/-- C3 counterexample: with every data source absent, the std draw fails
with `ValueError` while the non-std draw fails with `IndexError` — two
different error kinds, so there is no single InsufficientDataError kind
distinguishable from the other core error kinds. -/
theorem insufficient_c3_counterexample :
    random_full_name (mkNameGenerator loadEmpty 1 true none [Category.std])
      ⟨0, 0, [], []⟩ = Except.error PyError.valueError ∧
    random_full_name (mkNameGenerator loadEmpty 1 false none [Category.lbl])
      ⟨0, 0, [], []⟩ = Except.error PyError.indexError ∧
    PyError.valueError ≠ PyError.indexError := by
  decide

/-- Witness for the amended C3 at concrete empty-pool generators. -/
theorem insufficient_c3_amended_witness :
    random_full_name (mkNameGenerator loadEmpty 1 true none [Category.std])
      ⟨0, 0, [], []⟩ = Except.error PyError.valueError ∧
    random_full_name (mkNameGenerator loadEmpty 1 false none [Category.lbl])
      ⟨0, 0, [], []⟩ = Except.error PyError.indexError :=
  ⟨(insufficient_c3_amended _ _).1 (by decide) (by decide),
   (insufficient_c3_amended _ _).2 Category.lbl (by decide) (by decide) (by decide)⟩

/-- The defaulted head of a non-empty list is a member. -/
theorem headD_mem {α : Type} [Inhabited α] {l : List α} (h : l ≠ []) :
    l.headD default ∈ l := by
  cases l with
  | nil => exact absurd rfl h
  | cons a t => simp

/-- Characterization of a successful std draw: both samples fit their
pools and the FullName is assembled exactly from the drawn entries. -/
theorem random_std_full_name_ok {gen : NameGenerator} {d : Draws} {fn : FullName}
    (hok : _random_std_full_name gen d = .ok fn) :
    (if gen.with_middle_name then 2 else 1) ≤ gen.name_objs.length ∧
    gen.surname_count ≤ gen.surname_objs.length ∧
    fn = ⟨((pySampleGo gen.name_objs d.rnames
            (if gen.with_middle_name then 2 else 1)).headD default).name,
      String.intercalate "-" ((pySampleGo gen.surname_objs d.rsurnames
        gen.surname_count).map PartialName.name),
      ((pySampleGo gen.name_objs d.rnames
        (if gen.with_middle_name then 2 else 1)).headD default).gender.getD Gender.male,
      if gen.with_middle_name then
        some (((pySampleGo gen.name_objs d.rnames
          (if gen.with_middle_name then 2 else 1)).getD 1 default).name)
      else none⟩ := by
  unfold _random_std_full_name at hok
  cases hns : pySample gen.name_objs (if gen.with_middle_name then 2 else 1) d.rnames with
  | error e => rw [hns] at hok; cases hok
  | ok ns =>
    rw [hns] at hok
    cases hss : pySample gen.surname_objs gen.surname_count d.rsurnames with
    | error e => rw [hss] at hok; cases hok
    | ok ss =>
      rw [hss] at hok
      obtain ⟨hk1, hns'⟩ := pySample_ok hns
      obtain ⟨hk2, hss'⟩ := pySample_ok hss
      subst hns'
      subst hss'
      exact ⟨hk1, hk2, (Except.ok.inj hok).symm⟩

/-- C1: a successful std sample with includeMiddleName set drew 2 distinct
first-name pool entries without replacement (a sub-permutation of the pool,
duplicate-free whenever the pool is) and `surnameCount` distinct surname
pool entries without replacement whose texts are joined with a hyphen; the
result's gender is that of the first drawn first-name entry, its given name
that entry's text, and its middle name the second drawn entry's text —
`none` when includeMiddleName is false. -/
theorem std_sampler_c1 (load : String → List JsonEntry) (cnt : Nat) (wm : Bool)
    (g? : Option Gender) (cats : List Category) (d : Draws) (fn : FullName)
    (hok : _random_std_full_name (mkNameGenerator load cnt wm g? cats) d =
      Except.ok fn) :
    ∃ ns ss : List PartialName,
      ns = pySampleGo (stdNameObjs load g?) d.rnames (if wm then 2 else 1) ∧
      ss = pySampleGo (stdSurnameObjs load) d.rsurnames cnt ∧
      ns.length = (if wm then 2 else 1) ∧
      List.Subperm ns (stdNameObjs load g?) ∧
      ((stdNameObjs load g?).Nodup → ns.Nodup) ∧
      ss.length = cnt ∧
      List.Subperm ss (stdSurnameObjs load) ∧
      ((stdSurnameObjs load).Nodup → ss.Nodup) ∧
      fn.name = (ns.headD default).name ∧
      (∃ g, (ns.headD default).gender = some g ∧ fn.gender = g) ∧
      fn.surname = String.intercalate "-" (ss.map PartialName.name) ∧
      fn.middle_name = (if wm then some ((ns.getD 1 default).name) else none) := by
  obtain ⟨hk1, hk2, hfn⟩ := random_std_full_name_ok hok
  have hk1' : (if wm then 2 else 1) ≤ (stdNameObjs load g?).length := hk1
  have hk2' : cnt ≤ (stdSurnameObjs load).length := hk2
  have hlen := pySampleGo_length (if wm then 2 else 1) (stdNameObjs load g?) d.rnames hk1'
  have hne : pySampleGo (stdNameObjs load g?) d.rnames (if wm then 2 else 1) ≠ [] := by
    intro hnil
    rw [hnil] at hlen
    cases wm <;> simp at hlen
  have hmem : (pySampleGo (stdNameObjs load g?) d.rnames
      (if wm then 2 else 1)).headD default ∈ stdNameObjs load g? :=
    (pySampleGo_subperm _ _ _).subset (headD_mem hne)
  obtain ⟨-, hsome, -⟩ := mem_stdNameObjs hmem
  obtain ⟨g, hg⟩ := Option.isSome_iff_exists.mp hsome
  subst hfn
  refine ⟨_, _, rfl, rfl, hlen,
    pySampleGo_subperm _ _ _,
    fun hnd => subperm_nodup (pySampleGo_subperm _ _ _) hnd,
    pySampleGo_length _ _ _ hk2',
    pySampleGo_subperm _ _ _,
    fun hnd => subperm_nodup (pySampleGo_subperm _ _ _) hnd,
    rfl, ⟨g, hg, ?_⟩, rfl, rfl⟩
  show ((pySampleGo (stdNameObjs load g?) d.rnames
    (if wm then 2 else 1)).headD default).gender.getD Gender.male = g
  rw [hg]
  rfl

/-- Witness for C1 at a concrete loader and draw. -/
theorem std_sampler_c1_witness :
    ∃ ns ss : List PartialName,
      ns = pySampleGo (stdNameObjs loadSample (some Gender.male)) [0]
        (if true then 2 else 1) ∧
      ss = pySampleGo (stdSurnameObjs loadSample) [0] 2 ∧
      ns.length = (if true then 2 else 1) ∧
      List.Subperm ns (stdNameObjs loadSample (some Gender.male)) ∧
      ((stdNameObjs loadSample (some Gender.male)).Nodup → ns.Nodup) ∧
      ss.length = 2 ∧
      List.Subperm ss (stdSurnameObjs loadSample) ∧
      ((stdSurnameObjs loadSample).Nodup → ss.Nodup) ∧
      (FullName.mk "Jean" "Tremblay-Gagnon" Gender.male (some "Marc")).name =
        (ns.headD default).name ∧
      (∃ g, (ns.headD default).gender = some g ∧
        (FullName.mk "Jean" "Tremblay-Gagnon" Gender.male (some "Marc")).gender = g) ∧
      (FullName.mk "Jean" "Tremblay-Gagnon" Gender.male (some "Marc")).surname =
        String.intercalate "-" (ss.map PartialName.name) ∧
      (FullName.mk "Jean" "Tremblay-Gagnon" Gender.male (some "Marc")).middle_name =
        (if true then some ((ns.getD 1 default).name) else none) :=
  std_sampler_c1 loadSample 2 true (some Gender.male) [Category.std]
    ⟨0, 0, [0], [0]⟩ ⟨"Jean", "Tremblay-Gagnon", Gender.male, some "Marc"⟩ (by decide)

/-- C7: with genderFilter set, every FullName the generator can produce —
over all category choices and random draws — carries exactly the filtered
gender, for MALE and FEMALE alike. -/
theorem gender_filter_c7 (load : String → List JsonEntry) (cnt : Nat) (wm : Bool)
    (g : Gender) (cats : List Category) (d : Draws) (fn : FullName)
    (hok : random_full_name (mkNameGenerator load cnt wm (some g) cats) d =
      Except.ok fn) :
    fn.gender = g := by
  unfold random_full_name at hok
  cases hch : pyChoice ((mkNameGenerator load cnt wm (some g) cats).cat_objs.map
      Prod.fst) d.rcat with
  | error e => rw [hch] at hok; cases hok
  | ok c =>
    rw [hch] at hok
    have hok' : (if c = Category.std then
        _random_std_full_name (mkNameGenerator load cnt wm (some g) cats) d
      else
        pyChoice (((mkNameGenerator load cnt wm (some g) cats).cat_objs.lookup c).getD [])
          d.rpick) = Except.ok fn := hok
    by_cases hc : c = Category.std
    · rw [if_pos hc] at hok'
      obtain ⟨hk1, -, hfn⟩ := random_std_full_name_ok hok'
      have hk1' : (if wm then 2 else 1) ≤ (stdNameObjs load (some g)).length := hk1
      have hlen := pySampleGo_length (if wm then 2 else 1) (stdNameObjs load (some g))
        d.rnames hk1'
      have hne : pySampleGo (stdNameObjs load (some g)) d.rnames
          (if wm then 2 else 1) ≠ [] := by
        intro hnil
        rw [hnil] at hlen
        cases wm <;> simp at hlen
      have hmem : (pySampleGo (stdNameObjs load (some g)) d.rnames
          (if wm then 2 else 1)).headD default ∈ stdNameObjs load (some g) :=
        (pySampleGo_subperm _ _ _).subset (headD_mem hne)
      obtain ⟨-, -, hgg⟩ := mem_stdNameObjs hmem
      have hsg := hgg g rfl
      subst hfn
      show ((pySampleGo (stdNameObjs load (some g)) d.rnames
        (if wm then 2 else 1)).headD default).gender.getD Gender.male = g
      rw [hsg]
      rfl
    · rw [if_neg hc] at hok'
      have hmemfn := pyChoice_ok_mem hok'
      cases hlk : (mkNameGenerator load cnt wm (some g) cats).cat_objs.lookup c with
      | none => rw [hlk] at hmemfn; simp at hmemfn
      | some l' =>
        rw [hlk] at hmemfn
        obtain ⟨l₁, l₂, heq, -⟩ := List.lookup_eq_some_iff.mp hlk
        have hin : (c, l') ∈ (mkNameGenerator load cnt wm (some g) cats).cat_objs := by
          rw [heq]
          exact List.mem_append.mpr (Or.inr (List.mem_cons_self _ _))
        have hall : ∀ p ∈ (mkNameGenerator load cnt wm (some g) cats).cat_objs,
            ∀ x ∈ p.2, x.gender = g := by
          intro p hp x hx
          have hp' : p ∈ (if Category.std ∈ cats then
              [(Category.std, ([] : List FullName))] else []) ++
              (cats.filter (· ≠ Category.std)).map
                (fun cc => (cc, _get_cat_objs load (some g) cc)) := hp
          rw [List.mem_append] at hp'
          cases hp' with
          | inl h =>
            by_cases hstd : Category.std ∈ cats
            · rw [if_pos hstd] at h
              have hp2 := List.mem_singleton.mp h
              rw [hp2] at hx
              simp at hx
            · rw [if_neg hstd] at h
              cases h
          | inr h =>
            obtain ⟨cc, -, hpe⟩ := List.mem_map.mp h
            rw [← hpe] at hx
            exact (mem_get_cat_objs hx).2.2.2 g rfl
        exact hall _ hin fn (by simpa using hmemfn)

/-- Witness for C7 at a concrete male-filtered generator and draw. -/
theorem gender_filter_c7_witness :
    (FullName.mk "Jean" "Tremblay" Gender.male none).gender = Gender.male :=
  gender_filter_c7 loadSample 1 false Gender.male [Category.std]
    ⟨0, 0, [0], [0]⟩ ⟨"Jean", "Tremblay", Gender.male, none⟩ (by decide)

/-- C10: pool building excludes a present-but-empty field exactly like an
absent one — a non-std FullName is built only from records with both fields
non-empty, and a first-name or surname pool entry only from records whose
relevant field is non-empty, so no pool entry ever has empty text. -/
theorem pools_c10 (load : String → List JsonEntry) (g? : Option Gender) :
    (∀ (g : Gender) (e : JsonEntry),
      (e.name = none ∨ e.name = some "" ∨ e.surname = none ∨ e.surname = some "") →
      entryFullName g e = none) ∧
    (∀ (cat : Category) (fn : FullName), fn ∈ _get_cat_objs load g? cat →
      fn.name ≠ "" ∧ fn.surname ≠ "") ∧
    (∀ p ∈ stdNameObjs load g?, p.name ≠ "") ∧
    (∀ p ∈ stdSurnameObjs load, p.name ≠ "") := by
  refine ⟨entryFullName_none, ?_, ?_, ?_⟩
  · intro cat fn h
    exact ⟨(mem_get_cat_objs h).1, (mem_get_cat_objs h).2.1⟩
  · intro p hp
    exact (mem_stdNameObjs hp).1
  · intro p hp
    exact (mem_stdSurnameObjs hp).1

/-- Witness for C10 at concrete records and pools. -/
theorem pools_c10_witness :
    entryFullName Gender.male ⟨some "", some "Tremblay"⟩ = none ∧
    ((FullName.mk "Gilles" "Proulx" Gender.male none).name ≠ "" ∧
      (FullName.mk "Gilles" "Proulx" Gender.male none).surname ≠ "") ∧
    (PartialName.mk "Jean" (some Gender.male)).name ≠ "" :=
  ⟨(pools_c10 loadSample none).1 Gender.male ⟨some "", some "Tremblay"⟩ (by simp),
   (pools_c10 loadSample none).2.1 Category.lbl
     ⟨"Gilles", "Proulx", Gender.male, none⟩ (by decide),
   (pools_c10 loadSample none).2.2.1 ⟨"Jean", some Gender.male⟩ (by decide)⟩
